import Mathlib

/-!
Shallow embedding of the FlappyBirdAI evolutionary-training engine
(`genetic.py`, `genetic_controller.py`, `export_weights.py`).

Machine floats are modelled by real numbers; the external random draws
(numpy / `random`) are passed in explicitly as streams, and the external
game oracle is abstracted away: only the per-trial score list it produces
is taken as input where fitness aggregation is concerned.
-/

open Finset

/-- The `Genetic_AI` agent of `genetic.py`: a flat weight vector, the
architecture parameters, the fitness bookkeeping fields and the
per-trial inference state `previous_y`. -/
structure Genetic_AI where
  genotype : List ℝ
  num_features : ℕ
  hidden_size : ℕ
  fit_score : ℝ
  fit_rel : ℝ
  previous_y : Option ℝ

instance : Inhabited Genetic_AI := ⟨⟨[], 6, 8, 0, 0, none⟩⟩

/-- `np.clip(v, -3, 3)` : clamp a single value into `[-3, 3]`. -/
noncomputable def clip3 (v : ℝ) : ℝ := min (max v (-3)) 3

/-- The mutation branch of `Genetic_AI.__init__` (`genetic.py` lines 31-36):
`genotype + np.random.normal(0, noise_sd, len(genotype))`, clipped to
`[-3, 3]`.  The Gaussian draw is the stream `noise`. -/
noncomputable def mutate_genotype (g : List ℝ) (noise : ℕ → ℝ) : List ℝ :=
  (List.range g.length).map (fun i => clip3 (g.getD i 0 + noise i))

/-- `Genetic_AI.__init__` (`genetic.py` lines 8-40).  `genotype = none`
models the `genotype=None` default, in which case the Xavier draw
`xavier` fills a vector of the required total length; otherwise the
given vector is stored, mutated first when `mutate` is set.  The fields
`fit_score`, `fit_rel` are set to `0` and `previous_y` to `None`. -/
noncomputable def Genetic_AI.init (genotype : Option (List ℝ)) (num_features hidden_size : ℕ)
    (mutateFlag : Bool) (noise : ℕ → ℝ) (xavier : ℕ → ℝ) : Genetic_AI :=
  match genotype with
  | none =>
      ⟨(List.range (num_features * hidden_size + hidden_size + hidden_size + 1)).map xavier,
        num_features, hidden_size, 0, 0, none⟩
  | some g =>
      if mutateFlag then ⟨mutate_genotype g noise, num_features, hidden_size, 0, 0, none⟩
      else ⟨g, num_features, hidden_size, 0, 0, none⟩

/-- `Genetic_AI._forward_pass` (`genetic.py` lines 50-66): slice the flat
genotype into `W1` (reshaped `num_features × hidden_size`), `b1`, `W2`,
`b2`, then compute `tanh(state · W1 + b1) · W2 + b2`. -/
noncomputable def Genetic_AI.forward_pass (ai : Genetic_AI) (state : List ℝ) : ℝ :=
  let w1_end := ai.num_features * ai.hidden_size
  let b1_end := w1_end + ai.hidden_size
  let w2_end := b1_end + ai.hidden_size
  let W1 := ai.genotype.take w1_end
  let b1 := (ai.genotype.drop w1_end).take ai.hidden_size
  let W2 := (ai.genotype.drop b1_end).take ai.hidden_size
  let b2 := ai.genotype.getD w2_end 0
  (∑ j ∈ Finset.range ai.hidden_size,
      Real.tanh ((∑ i ∈ Finset.range ai.num_features,
          state.getD i 0 * W1.getD (i * ai.hidden_size + j) 0) + b1.getD j 0) * W2.getD j 0)
    + b2

/-- `Genetic_AI.getMove` (`genetic.py` lines 68-89): derive the velocity
from `previous_y`, update `previous_y` to the current bird height,
build the six enhanced features and run the forward pass.  The first
component is the raw network output (the Python decision is
`output > 0`); the second is the updated agent. -/
noncomputable def Genetic_AI.getMove (ai : Genetic_AI) (state : List ℝ) : ℝ × Genetic_AI :=
  let velocity : ℝ :=
    match ai.previous_y with
    | some y => state.getD 2 0 - y
    | none => 0
  let ai2 : Genetic_AI := { ai with previous_y := some (state.getD 2 0) }
  let enhanced_state : List ℝ :=
    [state.getD 0 0 / 256, state.getD 1 0 / 568, state.getD 2 0 / 512,
     velocity / 10, min (state.getD 1 0 / 568) 1,
     if |state.getD 0 0| < 50 then (1 : ℝ) else 0]
  (ai2.forward_pass enhanced_state, ai2)

/-- Mean of a list of scores, `np.mean`. -/
noncomputable def fitness_mean (l : List ℝ) : ℝ := l.sum / l.length

/-- Population standard deviation of a list of scores, `np.std`
(`ddof = 0`). -/
noncomputable def fitness_std (l : List ℝ) : ℝ :=
  Real.sqrt ((l.map (fun x => (x - fitness_mean l) ^ 2)).sum / l.length)

/-- The aggregation step of `compute_fitness` (`genetic_controller.py`
lines 54-65), as a function of the list of collected trial scores: when
more than 2 scores were collected and their standard deviation is
positive, average the scores within 2 standard deviations of the mean,
falling back to the mean of all scores when that filter keeps nothing;
otherwise average all scores. -/
noncomputable def compute_fitness_agg (scores : List ℝ) : ℝ :=
  if scores.length > 2 then
    if fitness_std scores > 0 then
      if (scores.filter
            (fun x => |x - fitness_mean scores| ≤ 2 * fitness_std scores)).length > 0 then
        fitness_mean (scores.filter
          (fun x => |x - fitness_mean scores| ≤ 2 * fitness_std scores))
      else fitness_mean scores
    else fitness_mean scores
  else fitness_mean scores

/-- `cross` (`genetic_controller.py` lines 9-37), offspring genotype
before the final mutated construction.  The fair coins of the uniform
strategy are the stream `coins` (`true` picks parent `a1`), and `cut`
is the `random.randint(1, len - 1)` draw of the single-point branch. -/
noncomputable def crossGenotype (a1 a2 : Genetic_AI) (aggregate : String)
    (coins : ℕ → Bool) (cut : ℕ) : List ℝ :=
  if aggregate = "uniform" then
    (List.range a1.genotype.length).map
      (fun i => if coins i then a1.genotype.getD i 0 else a2.genotype.getD i 0)
  else if aggregate = "blend" then
    (List.range a1.genotype.length).map
      (fun i =>
        (if a1.fit_score + a2.fit_score > 0 then
            a1.fit_score / (a1.fit_score + a2.fit_score) else (1 : ℝ) / 2) * a1.genotype.getD i 0
        + (if a1.fit_score + a2.fit_score > 0 then
            a2.fit_score / (a1.fit_score + a2.fit_score) else (1 : ℝ) / 2) * a2.genotype.getD i 0)
  else
    a1.genotype.take cut ++ a2.genotype.drop cut

/-- `cross` (`genetic_controller.py` line 39): build the offspring agent
with `Genetic_AI(genotype=np.array(new_genotype), mutate=True)`. -/
noncomputable def cross (a1 a2 : Genetic_AI) (aggregate : String)
    (coins : ℕ → Bool) (cut : ℕ) (noise : ℕ → ℝ) : Genetic_AI :=
  Genetic_AI.init (some (crossGenotype a1 a2 aggregate coins cut)) 6 8 true noise (fun _ => 0)

/-- The selection/recombination step of one epoch of `run_X_epochs`
(`genetic_controller.py` lines 106-135): copy the top `num_elite`
genotypes into fresh unmutated agents, then fill the remaining
`pop_size - num_elite` slots with crossover offspring.  Tournament
selection's resolved parent pair for slot `k` is `parents k`, with the
per-slot random streams `coins k`, `cuts k`, `noises k`. -/
noncomputable def next_generation (sorted_pop : List Genetic_AI) (num_elite pop_size : ℕ)
    (aggregate : String) (parents : ℕ → Genetic_AI × Genetic_AI)
    (coins : ℕ → ℕ → Bool) (cuts : ℕ → ℕ) (noises : ℕ → ℕ → ℝ) : List Genetic_AI :=
  ((List.range num_elite).map
      (fun i => Genetic_AI.init (some ((sorted_pop.getD i default).genotype)) 6 8 false
        (fun _ => 0) (fun _ => 0)))
    ++ ((List.range (pop_size - num_elite)).map
      (fun k => cross (parents k).1 (parents k).2 aggregate (coins k) (cuts k) (noises k)))

/-- One comparison step of Python's `max(tournament, key=lambda x: x.fit_score)`:
the running best is replaced exactly when the next element's key is
strictly larger.  Elements are pool indices (object identity). -/
noncomputable def tournament_step (pool : List Genetic_AI) (best i : ℕ) : ℕ :=
  if (pool.getD best default).fit_score < (pool.getD i default).fit_score then i else best

/-- `tournament_selection` (`genetic_controller.py` lines 156-161) with
the `random.sample` draw given as the list `sample` of pool indices:
Python's `max(tournament, key=...)` keeps the earliest element of
maximal `fit_score`. -/
noncomputable def tournament_selection (pool : List Genetic_AI) (sample : List ℕ) : ℕ :=
  sample.tail.foldl (tournament_step pool) (sample.headD 0)

/-- The `while parent1 is parent2 and len(parents) > 1` retry loop of
`run_X_epochs` (`genetic_controller.py` lines 131-133), with the
successive tournament results for the second parent given as `draws`
(the head is the initial draw). -/
def retry_second (p1 : ℕ) (poolLen : ℕ) : List ℕ → ℕ
  | [] => p1
  | d :: ds => if d = p1 ∧ 1 < poolLen then retry_second p1 poolLen ds else d

/-- `load_and_test_exported_weights` (`export_weights.py` lines 139-147),
restricted to the reconstruction step: the parsed export carries the
weights array and the declared `architecture.total_weights`, and the
agent is rebuilt with `Genetic_AI(genotype=np.array(data['weights']))`.
The declared total is never consulted. -/
noncomputable def load_exported_weights (weights : List ℝ) (declared_total : ℕ) : Genetic_AI :=
  Genetic_AI.init (some weights) 6 8 false (fun _ => 0) (fun _ => 0)

/-- The six features as the spec words them: gapDistance/256,
horizontalDistance/568, birdHeight/512, velocity/10 (velocity = current
birdHeight minus `lastObservedY`, or 0 when `lastObservedY` is unset),
urgency = min(horizontalDistance/568, 1.0), and alignment = 1.0 when
|gapDistance| < 50 else 0.0.  Used to compare `getMove` against the
spec sentence of claim C1. -/
noncomputable def specFeatures (lastObservedY : Option ℝ)
    (gapDistance horizontalDistance birdHeight : ℝ) : List ℝ :=
  [gapDistance / 256, horizontalDistance / 568, birdHeight / 512,
   (match lastObservedY with | some y => birdHeight - y | none => 0) / 10,
   min (horizontalDistance / 568) 1,
   if |gapDistance| < 50 then (1 : ℝ) else 0]

/-- The network output as the spec words it:
`tanh(features · W1 + b1) · W2 + b2 > 0` decides the move, where `W1`
(row-major `features × hidden`), `b1`, `W2`, `b2` are the consecutive
slices of the flat weight vector `w`. -/
noncomputable def specNetworkOutput (w : List ℝ) (f h : ℕ) (features : List ℝ) : ℝ :=
  (∑ j ∈ Finset.range h,
      Real.tanh ((∑ i ∈ Finset.range f, features.getD i 0 * w.getD (i * h + j) 0)
          + w.getD (f * h + j) 0) * w.getD (f * h + h + j) 0)
    + w.getD (f * h + h + h) 0

/-- Fitness aggregation as the spec words it (§4.2): when `trials > 2`
and the sample standard deviation is nonzero, discard any score farther
than 2 standard deviations from the mean and average the remainder,
falling back to averaging all scores when the discard empties the
sample; otherwise average all scores directly. -/
noncomputable def specEvaluate (scores : List ℝ) (trials : ℕ) : ℝ :=
  if 2 < trials ∧ fitness_std scores ≠ 0 then
    if scores.filter
        (fun x => ¬ 2 * fitness_std scores < |x - fitness_mean scores|) = [] then
      fitness_mean scores
    else
      fitness_mean (scores.filter
        (fun x => ¬ 2 * fitness_std scores < |x - fitness_mean scores|))
  else fitness_mean scores

/-! ## Helper lemmas on list indexing -/

theorem getD_map_range {α : Type} (f : ℕ → α) {n i : ℕ} (hi : i < n) (d : α) :
    ((List.range n).map f).getD i d = f i := by
  simp [List.getD_eq_getElem?_getD, List.getElem?_map, List.getElem?_range, hi]

theorem getD_take_of_lt {α : Type} (l : List α) {n i : ℕ} (hi : i < n) (d : α) :
    (l.take n).getD i d = l.getD i d := by
  simp [List.getD_eq_getElem?_getD, List.getElem?_take, hi]

theorem getD_drop {α : Type} (l : List α) (n i : ℕ) (d : α) :
    (l.drop n).getD i d = l.getD (n + i) d := by
  simp [List.getD_eq_getElem?_getD, List.getElem?_drop]

/-! ## Claim C3 : mutation -/

/-- Claim C3: building a controller from a source genotype with
`mutate=True` gives, at every index, the source weight plus the drawn
noise clipped to `[-3, 3]`; hence every mutated gene lies in `[-3, 3]`,
and the length is preserved.  (The source vector itself is a pure value
here: the construction reads it and cannot modify it.) -/
theorem c3_mutation_clips (g : List ℝ) (noise : ℕ → ℝ) (f h : ℕ) (i : ℕ)
    (hi : i < g.length) :
    (Genetic_AI.init (some g) f h true noise (fun _ => 0)).genotype.getD i 0
        = min (max (g.getD i 0 + noise i) (-3)) 3
    ∧ -3 ≤ (Genetic_AI.init (some g) f h true noise (fun _ => 0)).genotype.getD i 0
    ∧ (Genetic_AI.init (some g) f h true noise (fun _ => 0)).genotype.getD i 0 ≤ 3
    ∧ (Genetic_AI.init (some g) f h true noise (fun _ => 0)).genotype.length
        = g.length := by
  have hgen : (Genetic_AI.init (some g) f h true noise (fun _ => 0)).genotype
      = mutate_genotype g noise := rfl
  have hval : (mutate_genotype g noise).getD i 0 = clip3 (g.getD i 0 + noise i) := by
    unfold mutate_genotype
    exact getD_map_range _ hi 0
  refine ⟨by rw [hgen, hval]; rfl, ?_, ?_, ?_⟩
  · rw [hgen, hval]
    exact le_min (le_max_right _ _) (by norm_num)
  · rw [hgen, hval]
    exact min_le_right _ _
  · rw [hgen]
    simp [mutate_genotype]

/-- Witness for C3 at `g = [0, 5]`, constant noise `4`, index `0`:
`0 + 4` clips to `3`. -/
theorem c3_mutation_clips_witness :
    (Genetic_AI.init (some [(0 : ℝ), 5]) 6 8 true (fun _ => 4) (fun _ => 0)).genotype.getD 0 0
        = min (max (([(0 : ℝ), 5]).getD 0 0 + 4) (-3)) 3
    ∧ -3 ≤ (Genetic_AI.init (some [(0 : ℝ), 5]) 6 8 true (fun _ => 4)
        (fun _ => 0)).genotype.getD 0 0
    ∧ (Genetic_AI.init (some [(0 : ℝ), 5]) 6 8 true (fun _ => 4)
        (fun _ => 0)).genotype.getD 0 0 ≤ 3
    ∧ (Genetic_AI.init (some [(0 : ℝ), 5]) 6 8 true (fun _ => 4)
        (fun _ => 0)).genotype.length = ([(0 : ℝ), 5]).length :=
  c3_mutation_clips [0, 5] (fun _ => 4) 6 8 0 (by decide)

/-! ## Claim C4 : no length validation at construction -/

/-- Claim C4 is false on the code: `Genetic_AI.__init__` performs no
length check, so a 3-element genotype is accepted verbatim even though
the default architecture expects `6*8+8+8+1 = 65` weights. -/
theorem c4_counterexample :
    (Genetic_AI.init (some [(1 : ℝ), 2, 3]) 6 8 false (fun _ => 0) (fun _ => 0)).genotype
        = [(1 : ℝ), 2, 3]
    ∧ ([(1 : ℝ), 2, 3] : List ℝ).length ≠ 6 * 8 + 8 + 8 + 1 :=
  ⟨rfl, by decide⟩

/-- Claim C4 amended: construction with an explicitly supplied weight
vector never validates its length; the vector is stored unchanged
whatever its length, for every architecture. -/
theorem c4_no_length_validation (g : List ℝ) (f h : ℕ) (noise xavier : ℕ → ℝ) :
    (Genetic_AI.init (some g) f h false noise xavier).genotype = g := rfl

/-! ## Claim C9 : no import validation -/

/-- Claim C9 is false on the code: `load_and_test_exported_weights`
reconstructs the agent directly from the parsed weights array and never
compares its length against the declared `architecture.total_weights`:
a 3-element array with a declared total of 65 is accepted. -/
theorem c9_counterexample :
    (load_exported_weights [(1 : ℝ), 2, 3] 65).genotype = [(1 : ℝ), 2, 3]
    ∧ ([(1 : ℝ), 2, 3] : List ℝ).length ≠ 65 :=
  ⟨rfl, by decide⟩

/-- Claim C9 amended: the importer performs no length validation at
all; for every weights array and every declared total, the controller
is reconstructed with exactly the given weights. -/
theorem c9_no_import_validation (w : List ℝ) (t : ℕ) :
    (load_exported_weights w t).genotype = w := rfl

/-! ## Claim C1 : getMove matches the spec formula -/

/-- The forward pass of a 6-feature agent, with the take/drop slicing of
the flat genotype unfolded into the direct consecutive-slice indexing
used by the spec's formula. -/
theorem forward_pass_eq_spec (g : List ℝ) (h : ℕ) (fit rel : ℝ) (py : Option ℝ)
    (feats : List ℝ) :
    (Genetic_AI.mk g 6 h fit rel py).forward_pass feats = specNetworkOutput g 6 h feats := by
  unfold Genetic_AI.forward_pass specNetworkOutput
  simp only
  congr 1
  apply Finset.sum_congr rfl
  intro j hj
  rw [Finset.mem_range] at hj
  have hb1 : ((g.drop (6 * h)).take h).getD j 0 = g.getD (6 * h + j) 0 := by
    rw [getD_take_of_lt _ hj, getD_drop]
  have hw2 : ((g.drop (6 * h + h)).take h).getD j 0 = g.getD (6 * h + h + j) 0 := by
    rw [getD_take_of_lt _ hj, getD_drop]
  have hsum : (∑ i ∈ Finset.range 6, feats.getD i 0 * (g.take (6 * h)).getD (i * h + j) 0)
      = ∑ i ∈ Finset.range 6, feats.getD i 0 * g.getD (i * h + j) 0 := by
    apply Finset.sum_congr rfl
    intro i hi
    rw [Finset.mem_range] at hi
    have hlt : i * h + j < 6 * h := by
      have h5 : i ≤ 5 := by omega
      have := Nat.mul_le_mul_right h h5
      omega
    rw [getD_take_of_lt _ hlt]
  rw [hb1, hw2, hsum]

/-- Claim C1: for every agent of the default 6-feature architecture with
a weight vector of the expected length, `getMove` on a raw state
`[gapDistance, horizontalDistance, birdHeight, bias]` computes exactly
the spec's network output on the spec's six features (so the decision
`output > 0` agrees), and its only state change is setting `previous_y`
to the current bird height. -/
theorem c1_getMove_matches_spec (h : ℕ) (g : List ℝ) (fit rel : ℝ) (prevY : Option ℝ)
    (s0 s1 s2 s3 : ℝ) (hg : g.length = 6 * h + h + h + 1) :
    ((Genetic_AI.mk g 6 h fit rel prevY).getMove [s0, s1, s2, s3]).1
        = specNetworkOutput g 6 h (specFeatures prevY s0 s1 s2)
    ∧ (((Genetic_AI.mk g 6 h fit rel prevY).getMove [s0, s1, s2, s3]).1 > 0
        ↔ specNetworkOutput g 6 h (specFeatures prevY s0 s1 s2) > 0)
    ∧ ((Genetic_AI.mk g 6 h fit rel prevY).getMove [s0, s1, s2, s3]).2
        = Genetic_AI.mk g 6 h fit rel (some s2) := by
  have hmove : (Genetic_AI.mk g 6 h fit rel prevY).getMove [s0, s1, s2, s3]
      = ((Genetic_AI.mk g 6 h fit rel (some s2)).forward_pass (specFeatures prevY s0 s1 s2),
         Genetic_AI.mk g 6 h fit rel (some s2)) := by
    cases prevY <;> rfl
  rw [hmove, forward_pass_eq_spec]
  exact ⟨rfl, Iff.rfl, rfl⟩

/-- Witness for C1 at the hidden size `0` architecture (expected length
`6*0+0+0+1 = 1`), genotype `[2]`, previous position unset, raw state
`[5, 6, 7, 8]`. -/
theorem c1_getMove_matches_spec_witness :
    ((Genetic_AI.mk [(2 : ℝ)] 6 0 0 0 none).getMove [5, 6, 7, 8]).1
        = specNetworkOutput [(2 : ℝ)] 6 0 (specFeatures none 5 6 7)
    ∧ (((Genetic_AI.mk [(2 : ℝ)] 6 0 0 0 none).getMove [5, 6, 7, 8]).1 > 0
        ↔ specNetworkOutput [(2 : ℝ)] 6 0 (specFeatures none 5 6 7) > 0)
    ∧ ((Genetic_AI.mk [(2 : ℝ)] 6 0 0 0 none).getMove [5, 6, 7, 8]).2
        = Genetic_AI.mk [(2 : ℝ)] 6 0 0 0 (some 7) :=
  c1_getMove_matches_spec 0 [2] 0 0 none 5 6 7 8 (by decide)

/-! ## Claim C2 : fitness aggregation -/

theorem c2_part1 (scores : List ℝ) (trials : ℕ) (h : scores.length = trials) :
    compute_fitness_agg scores = specEvaluate scores trials := by
  subst h
  unfold compute_fitness_agg specEvaluate
  have hnn : (0 : ℝ) ≤ fitness_std scores := Real.sqrt_nonneg _
  have hfilter : scores.filter
        (fun x => decide (|x - fitness_mean scores| ≤ 2 * fitness_std scores))
      = scores.filter
        (fun x => decide (¬ 2 * fitness_std scores < |x - fitness_mean scores|)) :=
    List.filter_congr (fun x _ => decide_eq_decide.mpr not_lt.symm)
  by_cases h2 : scores.length > 2
  · by_cases hstd : fitness_std scores > 0
    · have hand : 2 < scores.length ∧ fitness_std scores ≠ 0 := ⟨h2, ne_of_gt hstd⟩
      rw [if_pos h2, if_pos hstd, hfilter, if_pos hand]
      by_cases hemp : scores.filter
          (fun x => decide (¬ 2 * fitness_std scores < |x - fitness_mean scores|)) = []
      · rw [hemp, if_pos rfl]
        simp
      · rw [if_pos (List.length_pos.mpr hemp), if_neg hemp]
    · have hand : ¬ (2 < scores.length ∧ fitness_std scores ≠ 0) :=
        fun hc => hstd (lt_of_le_of_ne hnn (Ne.symm hc.2))
      rw [if_pos h2, if_neg hstd, if_neg hand]
  · rw [if_neg h2, if_neg (fun hc => h2 hc.1)]

theorem c2_mean_example : fitness_mean [(10 : ℝ), 11, 9, 10, 200] = 48 := by
  unfold fitness_mean
  norm_num

theorem c2_std_example : fitness_std [(10 : ℝ), 11, 9, 10, 200] = Real.sqrt (28882 / 5) := by
  unfold fitness_std
  rw [c2_mean_example]
  norm_num

theorem c2_std_ge : (76 : ℝ) ≤ fitness_std [(10 : ℝ), 11, 9, 10, 200] := by
  rw [c2_std_example]
  rw [show (76 : ℝ) = Real.sqrt (76 ^ 2) by rw [Real.sqrt_sq]; norm_num]
  apply Real.sqrt_le_sqrt
  norm_num

/-- The score `200` of the spec's own outlier example lies within 2
standard deviations of the mean (`|200 - 48| = 152 ≤ 2·√5776.4 ≈ 152.005`),
so nothing is trimmed and the aggregate is the plain mean `48`. -/
theorem c2_agg_example : compute_fitness_agg [(10 : ℝ), 11, 9, 10, 200] = 48 := by
  have hs76 := c2_std_ge
  have hspos : 0 < fitness_std [(10 : ℝ), 11, 9, 10, 200] := lt_of_lt_of_le (by norm_num) hs76
  have hfilt : ([(10 : ℝ), 11, 9, 10, 200]).filter
      (fun x => decide (|x - fitness_mean [(10 : ℝ), 11, 9, 10, 200]|
        ≤ 2 * fitness_std [(10 : ℝ), 11, 9, 10, 200])) = [(10 : ℝ), 11, 9, 10, 200] := by
    apply List.filter_eq_self.mpr
    intro x hx
    rw [decide_eq_true_eq, c2_mean_example, abs_le]
    fin_cases hx <;> constructor <;> linarith
  unfold compute_fitness_agg
  rw [if_pos (by norm_num : ([(10 : ℝ), 11, 9, 10, 200] : List ℝ).length > 2),
    if_pos hspos, hfilt, if_pos (by norm_num : ([(10 : ℝ), 11, 9, 10, 200] : List ℝ).length > 0),
    c2_mean_example]

/-- Claim C2 is false as stated at its own example: for the scores
`[10, 11, 9, 10, 200]` the aggregate is `48`, not `10` — the mean is
`48` and the population standard deviation is `√5776.4 > 76`, so
`|200 - 48| = 152` stays within the 2-standard-deviation band and is
not trimmed. -/
theorem c2_example_counterexample :
    compute_fitness_agg [(10 : ℝ), 11, 9, 10, 200] ≠ 10 := by
  rw [c2_agg_example]
  norm_num

/-- Claim C2 amended: the aggregation rule holds exactly as worded
(trim beyond 2 standard deviations when more than 2 trials and the
deviation is nonzero, with the fallback to the full mean), but on the
example scores `[10, 11, 9, 10, 200]` nothing is trimmed and the
result is `48.0`, not `10.0`. -/
theorem c2_fitness_matches_spec (scores : List ℝ) (trials : ℕ)
    (h : scores.length = trials) :
    compute_fitness_agg scores = specEvaluate scores trials
    ∧ compute_fitness_agg [(10 : ℝ), 11, 9, 10, 200] = 48 :=
  ⟨c2_part1 scores trials h, c2_agg_example⟩

/-- Witness for C2 at the single score list `[1]` with `trials = 1`. -/
theorem c2_fitness_matches_spec_witness :
    compute_fitness_agg [(1 : ℝ)] = specEvaluate [(1 : ℝ)] 1
    ∧ compute_fitness_agg [(10 : ℝ), 11, 9, 10, 200] = 48 :=
  c2_fitness_matches_spec [1] 1 rfl

/-! ## Claim C10 : the trimming fallback is unreachable -/

theorem mul_length_lt_sum (l : List ℝ) (a : ℝ) (hl : l ≠ []) (h : ∀ x ∈ l, a < x) :
    a * l.length < l.sum := by
  induction l with
  | nil => exact absurd rfl hl
  | cons x xs ih =>
    rcases eq_or_ne xs [] with h0 | h0
    · subst h0
      simpa using h x (List.mem_cons_self x [])
    · have hx := h x (List.mem_cons_self x xs)
      have hxs := ih h0 (fun y hy => h y (List.mem_cons_of_mem x hy))
      rw [List.sum_cons, List.length_cons]
      push_cast
      nlinarith

/-- In any non-empty score list of nonzero standard deviation some score
lies within 2 standard deviations of the mean: were every squared
deviation above the variance, their sum would exceed itself. -/
theorem exists_within_two_std (scores : List ℝ) (hlen : scores ≠ [])
    (hs : fitness_std scores ≠ 0) :
    ∃ x ∈ scores, |x - fitness_mean scores| ≤ 2 * fitness_std scores := by
  have hnn : (0 : ℝ) ≤ fitness_std scores := Real.sqrt_nonneg _
  have hspos : 0 < fitness_std scores := lt_of_le_of_ne hnn (Ne.symm hs)
  have hnpos : (0 : ℝ) < scores.length := by
    have := List.length_pos.mpr hlen
    exact_mod_cast this
  have hvnn : 0 ≤ (scores.map (fun x => (x - fitness_mean scores) ^ 2)).sum
      / (scores.length : ℝ) := by
    apply div_nonneg _ (le_of_lt hnpos)
    apply List.sum_nonneg
    intro y hy
    rcases List.mem_map.mp hy with ⟨x, _, rfl⟩
    positivity
  have hsq : fitness_std scores ^ 2
      = (scores.map (fun x => (x - fitness_mean scores) ^ 2)).sum / (scores.length : ℝ) := by
    unfold fitness_std
    exact Real.sq_sqrt hvnn
  have hex : ∃ x ∈ scores, (x - fitness_mean scores) ^ 2
      ≤ (scores.map (fun x => (x - fitness_mean scores) ^ 2)).sum / (scores.length : ℝ) := by
    by_contra hcon
    push_neg at hcon
    have hlne : scores.map (fun x => (x - fitness_mean scores) ^ 2) ≠ [] := by
      intro hnil
      exact hlen (List.map_eq_nil_iff.mp hnil)
    have hlt := mul_length_lt_sum (scores.map (fun x => (x - fitness_mean scores) ^ 2))
      ((scores.map (fun x => (x - fitness_mean scores) ^ 2)).sum / (scores.length : ℝ)) hlne ?_
    · rw [List.length_map] at hlt
      have hsum : (scores.map (fun x => (x - fitness_mean scores) ^ 2)).sum
            / (scores.length : ℝ)
          * scores.length = (scores.map (fun x => (x - fitness_mean scores) ^ 2)).sum := by
        field_simp
      linarith
    · intro y hy
      rcases List.mem_map.mp hy with ⟨x, hx, rfl⟩
      exact hcon x hx
  rcases hex with ⟨x, hx, hxle⟩
  refine ⟨x, hx, ?_⟩
  have h4 : (2 * fitness_std scores) ^ 2
      = 4 * ((scores.map (fun x => (x - fitness_mean scores) ^ 2)).sum
        / (scores.length : ℝ)) := by
    rw [mul_pow, hsq]
    ring
  have h1 : (x - fitness_mean scores) ^ 2 ≤ (2 * fitness_std scores) ^ 2 := by
    rw [h4]
    linarith
  have h2 := Real.sqrt_le_sqrt h1
  rwa [Real.sqrt_sq_eq_abs,
    Real.sqrt_sq (by linarith : (0 : ℝ) ≤ 2 * fitness_std scores)] at h2

/-- Claim C10: for every list of more than 2 scores with nonzero
standard deviation, the 2-standard-deviation filter keeps at least one
score, so the fallback that re-averages all scores after trimming is
unreachable and the aggregate equals the mean of the retained scores. -/
theorem c10_no_fallback (scores : List ℝ) (h2 : 2 < scores.length)
    (hs : fitness_std scores ≠ 0) :
    scores.filter
        (fun x => decide (|x - fitness_mean scores| ≤ 2 * fitness_std scores)) ≠ []
    ∧ compute_fitness_agg scores
        = fitness_mean (scores.filter
            (fun x => decide (|x - fitness_mean scores| ≤ 2 * fitness_std scores))) := by
  have hlen : scores ≠ [] := by
    intro hnil
    rw [hnil] at h2
    simp at h2
  rcases exists_within_two_std scores hlen hs with ⟨x, hx, habs⟩
  have hmem : x ∈ scores.filter
      (fun y => decide (|y - fitness_mean scores| ≤ 2 * fitness_std scores)) :=
    List.mem_filter.mpr ⟨hx, by rw [decide_eq_true_eq]; exact habs⟩
  have hne := List.ne_nil_of_mem hmem
  have hspos : 0 < fitness_std scores :=
    lt_of_le_of_ne (Real.sqrt_nonneg _) (Ne.symm hs)
  refine ⟨hne, ?_⟩
  unfold compute_fitness_agg
  rw [if_pos h2, if_pos hspos, if_pos (List.length_pos.mpr hne)]

/-- Witness for C10 at the scores `[0, 0, 3]` (mean `1`, variance `2`). -/
theorem c10_no_fallback_witness :
    ([(0 : ℝ), 0, 3]).filter
        (fun x => decide (|x - fitness_mean [(0 : ℝ), 0, 3]|
          ≤ 2 * fitness_std [(0 : ℝ), 0, 3])) ≠ []
    ∧ compute_fitness_agg [(0 : ℝ), 0, 3]
        = fitness_mean (([(0 : ℝ), 0, 3]).filter
            (fun x => decide (|x - fitness_mean [(0 : ℝ), 0, 3]|
              ≤ 2 * fitness_std [(0 : ℝ), 0, 3]))) :=
  c10_no_fallback [0, 0, 3] (by decide)
    (by
      unfold fitness_std
      rw [Real.sqrt_ne_zero']
      norm_num [fitness_mean])

/-! ## Claim C6 : blend crossover -/

/-- The blend branch of `cross`, read off at one gene index. -/
theorem blend_gene_eq (a1 a2 : Genetic_AI) (coins : ℕ → Bool) (cut i : ℕ)
    (hi : i < a1.genotype.length) :
    (crossGenotype a1 a2 "blend" coins cut).getD i 0
      = (if a1.fit_score + a2.fit_score > 0 then
            a1.fit_score / (a1.fit_score + a2.fit_score) else (1 : ℝ) / 2)
          * a1.genotype.getD i 0
        + (if a1.fit_score + a2.fit_score > 0 then
            a2.fit_score / (a1.fit_score + a2.fit_score) else (1 : ℝ) / 2)
          * a2.genotype.getD i 0 := by
  unfold crossGenotype
  rw [if_neg (by decide : ¬ ("blend" = "uniform")), if_pos rfl]
  exact getD_map_range _ hi 0

/-- Claim C6: with both parents of positive fitness, the blend offspring
gene at every index is the fitness-share weighted average of the two
parent genes, the shares sum to 1, and the gene lies between the two
parent values inclusive; when total fitness is not positive both shares
are 0.5. -/
theorem c6_blend_crossover (a1 a2 : Genetic_AI) (coins : ℕ → Bool) (cut i : ℕ)
    (hi : i < a1.genotype.length) :
    (0 < a1.fit_score → 0 < a2.fit_score →
      (crossGenotype a1 a2 "blend" coins cut).getD i 0
          = a1.fit_score / (a1.fit_score + a2.fit_score) * a1.genotype.getD i 0
            + a2.fit_score / (a1.fit_score + a2.fit_score) * a2.genotype.getD i 0
      ∧ a1.fit_score / (a1.fit_score + a2.fit_score)
          + a2.fit_score / (a1.fit_score + a2.fit_score) = 1
      ∧ min (a1.genotype.getD i 0) (a2.genotype.getD i 0)
          ≤ (crossGenotype a1 a2 "blend" coins cut).getD i 0
      ∧ (crossGenotype a1 a2 "blend" coins cut).getD i 0
          ≤ max (a1.genotype.getD i 0) (a2.genotype.getD i 0))
    ∧ (a1.fit_score + a2.fit_score ≤ 0 →
      (crossGenotype a1 a2 "blend" coins cut).getD i 0
          = 1 / 2 * a1.genotype.getD i 0 + 1 / 2 * a2.genotype.getD i 0) := by
  have hg := blend_gene_eq a1 a2 coins cut i hi
  constructor
  · intro h1 h2
    have htot : 0 < a1.fit_score + a2.fit_score := add_pos h1 h2
    have htne : a1.fit_score + a2.fit_score ≠ 0 := ne_of_gt htot
    simp only [if_pos htot] at hg
    have hws : a1.fit_score / (a1.fit_score + a2.fit_score)
        + a2.fit_score / (a1.fit_score + a2.fit_score) = 1 := by
      rw [div_add_div_same, div_self htne]
    have hw1 : 0 ≤ a1.fit_score / (a1.fit_score + a2.fit_score) :=
      div_nonneg (le_of_lt h1) (le_of_lt htot)
    have hw2 : 0 ≤ a2.fit_score / (a1.fit_score + a2.fit_score) :=
      div_nonneg (le_of_lt h2) (le_of_lt htot)
    refine ⟨hg, hws, ?_, ?_⟩
    · have t1 : a1.fit_score / (a1.fit_score + a2.fit_score)
            * min (a1.genotype.getD i 0) (a2.genotype.getD i 0)
          ≤ a1.fit_score / (a1.fit_score + a2.fit_score) * a1.genotype.getD i 0 :=
        mul_le_mul_of_nonneg_left (min_le_left _ _) hw1
      have t2 : a2.fit_score / (a1.fit_score + a2.fit_score)
            * min (a1.genotype.getD i 0) (a2.genotype.getD i 0)
          ≤ a2.fit_score / (a1.fit_score + a2.fit_score) * a2.genotype.getD i 0 :=
        mul_le_mul_of_nonneg_left (min_le_right _ _) hw2
      have hcomb : a1.fit_score / (a1.fit_score + a2.fit_score)
            * min (a1.genotype.getD i 0) (a2.genotype.getD i 0)
          + a2.fit_score / (a1.fit_score + a2.fit_score)
            * min (a1.genotype.getD i 0) (a2.genotype.getD i 0)
          = min (a1.genotype.getD i 0) (a2.genotype.getD i 0) := by
        rw [← add_mul, hws, one_mul]
      rw [hg]
      linarith [t1, t2]
    · have t1 : a1.fit_score / (a1.fit_score + a2.fit_score) * a1.genotype.getD i 0
          ≤ a1.fit_score / (a1.fit_score + a2.fit_score)
            * max (a1.genotype.getD i 0) (a2.genotype.getD i 0) :=
        mul_le_mul_of_nonneg_left (le_max_left _ _) hw1
      have t2 : a2.fit_score / (a1.fit_score + a2.fit_score) * a2.genotype.getD i 0
          ≤ a2.fit_score / (a1.fit_score + a2.fit_score)
            * max (a1.genotype.getD i 0) (a2.genotype.getD i 0) :=
        mul_le_mul_of_nonneg_left (le_max_right _ _) hw2
      have hcomb : a1.fit_score / (a1.fit_score + a2.fit_score)
            * max (a1.genotype.getD i 0) (a2.genotype.getD i 0)
          + a2.fit_score / (a1.fit_score + a2.fit_score)
            * max (a1.genotype.getD i 0) (a2.genotype.getD i 0)
          = max (a1.genotype.getD i 0) (a2.genotype.getD i 0) := by
        rw [← add_mul, hws, one_mul]
      rw [hg]
      linarith [t1, t2]
  · intro hle
    simp only [if_neg (not_lt.mpr hle)] at hg
    exact hg

/-- Witness for C6 with parents of genotypes `[1]` and `[5]` and fitness
scores `2` and `3`, at gene index `0`. -/
theorem c6_blend_crossover_witness :
    (0 < (Genetic_AI.mk [(1 : ℝ)] 6 8 2 0 none).fit_score →
      0 < (Genetic_AI.mk [(5 : ℝ)] 6 8 3 0 none).fit_score →
      (crossGenotype (Genetic_AI.mk [(1 : ℝ)] 6 8 2 0 none)
          (Genetic_AI.mk [(5 : ℝ)] 6 8 3 0 none) "blend" (fun _ => true) 0).getD 0 0
          = (Genetic_AI.mk [(1 : ℝ)] 6 8 2 0 none).fit_score
              / ((Genetic_AI.mk [(1 : ℝ)] 6 8 2 0 none).fit_score
                + (Genetic_AI.mk [(5 : ℝ)] 6 8 3 0 none).fit_score)
              * (Genetic_AI.mk [(1 : ℝ)] 6 8 2 0 none).genotype.getD 0 0
            + (Genetic_AI.mk [(5 : ℝ)] 6 8 3 0 none).fit_score
              / ((Genetic_AI.mk [(1 : ℝ)] 6 8 2 0 none).fit_score
                + (Genetic_AI.mk [(5 : ℝ)] 6 8 3 0 none).fit_score)
              * (Genetic_AI.mk [(5 : ℝ)] 6 8 3 0 none).genotype.getD 0 0
      ∧ (Genetic_AI.mk [(1 : ℝ)] 6 8 2 0 none).fit_score
            / ((Genetic_AI.mk [(1 : ℝ)] 6 8 2 0 none).fit_score
              + (Genetic_AI.mk [(5 : ℝ)] 6 8 3 0 none).fit_score)
          + (Genetic_AI.mk [(5 : ℝ)] 6 8 3 0 none).fit_score
            / ((Genetic_AI.mk [(1 : ℝ)] 6 8 2 0 none).fit_score
              + (Genetic_AI.mk [(5 : ℝ)] 6 8 3 0 none).fit_score) = 1
      ∧ min ((Genetic_AI.mk [(1 : ℝ)] 6 8 2 0 none).genotype.getD 0 0)
            ((Genetic_AI.mk [(5 : ℝ)] 6 8 3 0 none).genotype.getD 0 0)
          ≤ (crossGenotype (Genetic_AI.mk [(1 : ℝ)] 6 8 2 0 none)
              (Genetic_AI.mk [(5 : ℝ)] 6 8 3 0 none) "blend" (fun _ => true) 0).getD 0 0
      ∧ (crossGenotype (Genetic_AI.mk [(1 : ℝ)] 6 8 2 0 none)
            (Genetic_AI.mk [(5 : ℝ)] 6 8 3 0 none) "blend" (fun _ => true) 0).getD 0 0
          ≤ max ((Genetic_AI.mk [(1 : ℝ)] 6 8 2 0 none).genotype.getD 0 0)
            ((Genetic_AI.mk [(5 : ℝ)] 6 8 3 0 none).genotype.getD 0 0))
    ∧ ((Genetic_AI.mk [(1 : ℝ)] 6 8 2 0 none).fit_score
          + (Genetic_AI.mk [(5 : ℝ)] 6 8 3 0 none).fit_score ≤ 0 →
      (crossGenotype (Genetic_AI.mk [(1 : ℝ)] 6 8 2 0 none)
          (Genetic_AI.mk [(5 : ℝ)] 6 8 3 0 none) "blend" (fun _ => true) 0).getD 0 0
          = 1 / 2 * (Genetic_AI.mk [(1 : ℝ)] 6 8 2 0 none).genotype.getD 0 0
            + 1 / 2 * (Genetic_AI.mk [(5 : ℝ)] 6 8 3 0 none).genotype.getD 0 0) :=
  c6_blend_crossover (Genetic_AI.mk [(1 : ℝ)] 6 8 2 0 none)
    (Genetic_AI.mk [(5 : ℝ)] 6 8 3 0 none) (fun _ => true) 0 0 (by decide)

/-! ## Claim C8 : weight-vector length invariant -/

theorem crossGenotype_length (a1 a2 : Genetic_AI) (aggregate : String)
    (coins : ℕ → Bool) (cut : ℕ)
    (heq : a1.genotype.length = a2.genotype.length)
    (hcut : cut ≤ a1.genotype.length) :
    (crossGenotype a1 a2 aggregate coins cut).length = a1.genotype.length := by
  unfold crossGenotype
  by_cases hu : aggregate = "uniform"
  · rw [if_pos hu]
    simp
  · rw [if_neg hu]
    by_cases hb : aggregate = "blend"
    · rw [if_pos hb]
      simp
    · rw [if_neg hb]
      rw [List.length_append, List.length_take, List.length_drop]
      omega

/-- Claim C8: a randomly initialized controller has exactly
`features*hidden + hidden + hidden + 1` weights; every crossover
strategy applied to equal-length parents (with an in-range cut) keeps
that length, as does the mutation pass over the offspring and over any
genotype; and inference (`getMove`) never touches the weight vector, so
the length is constant over a controller's lifetime. -/
theorem c8_length_invariant (f h : ℕ) (noise xavier : ℕ → ℝ) (g : List ℝ)
    (a1 a2 : Genetic_AI) (aggregate : String) (coins : ℕ → Bool) (cut : ℕ)
    (noise2 : ℕ → ℝ) (ai : Genetic_AI) (state : List ℝ)
    (heq : a1.genotype.length = a2.genotype.length)
    (hcut : cut ≤ a1.genotype.length) :
    (Genetic_AI.init none f h false noise xavier).genotype.length = f * h + h + h + 1
    ∧ (crossGenotype a1 a2 aggregate coins cut).length = a1.genotype.length
    ∧ (cross a1 a2 aggregate coins cut noise2).genotype.length = a1.genotype.length
    ∧ (mutate_genotype g noise).length = g.length
    ∧ (Genetic_AI.init (some g) f h true noise xavier).genotype.length = g.length
    ∧ ((ai.getMove state).2).genotype = ai.genotype := by
  refine ⟨?_, crossGenotype_length a1 a2 aggregate coins cut heq hcut, ?_, ?_, ?_, rfl⟩
  · unfold Genetic_AI.init
    simp
  · show (mutate_genotype (crossGenotype a1 a2 aggregate coins cut) noise2).length
      = a1.genotype.length
    rw [show (mutate_genotype (crossGenotype a1 a2 aggregate coins cut) noise2).length
        = (crossGenotype a1 a2 aggregate coins cut).length by simp [mutate_genotype]]
    exact crossGenotype_length a1 a2 aggregate coins cut heq hcut
  · simp [mutate_genotype]
  · show (mutate_genotype g noise).length = g.length
    simp [mutate_genotype]

/-- Witness for C8 with a `1×1` random architecture, parents of length 2,
a single-point cut at 1, and an empty inference state. -/
theorem c8_length_invariant_witness :
    (Genetic_AI.init none 1 1 false (fun _ => 0) (fun _ => 0)).genotype.length
        = 1 * 1 + 1 + 1 + 1
    ∧ (crossGenotype (Genetic_AI.mk [(1 : ℝ), 2] 6 8 0 0 none)
        (Genetic_AI.mk [(3 : ℝ), 4] 6 8 0 0 none) "blend" (fun _ => true) 1).length
        = (Genetic_AI.mk [(1 : ℝ), 2] 6 8 0 0 none).genotype.length
    ∧ (cross (Genetic_AI.mk [(1 : ℝ), 2] 6 8 0 0 none)
        (Genetic_AI.mk [(3 : ℝ), 4] 6 8 0 0 none) "blend" (fun _ => true) 1
        (fun _ => 0)).genotype.length
        = (Genetic_AI.mk [(1 : ℝ), 2] 6 8 0 0 none).genotype.length
    ∧ (mutate_genotype [(0 : ℝ)] (fun _ => 0)).length = ([(0 : ℝ)]).length
    ∧ (Genetic_AI.init (some [(0 : ℝ)]) 1 1 true (fun _ => 0) (fun _ => 0)).genotype.length
        = ([(0 : ℝ)]).length
    ∧ (((Genetic_AI.mk [] 6 8 0 0 none).getMove []).2).genotype
        = (Genetic_AI.mk [] 6 8 0 0 none).genotype :=
  c8_length_invariant 1 1 (fun _ => 0) (fun _ => 0) [(0 : ℝ)]
    (Genetic_AI.mk [(1 : ℝ), 2] 6 8 0 0 none) (Genetic_AI.mk [(3 : ℝ), 4] 6 8 0 0 none)
    "blend" (fun _ => true) 1 (fun _ => 0) (Genetic_AI.mk [] 6 8 0 0 none) []
    (by decide) (by decide)

/-! ## Claim C5 : elitism and mutate-after-crossover -/

/-- Claim C5: for a ranked population and `numElite` at most the
population size, the first `numElite` slots of the next generation
carry exactly the top genotypes with fitness reset to 0 and
`previous_y` unset (no mutation applied), and each of the remaining
`pop_size - num_elite` slots holds a crossover offspring whose genotype
has been passed through the mutation operator. -/
theorem c5_elites_and_offspring (sorted_pop : List Genetic_AI) (num_elite pop_size : ℕ)
    (aggregate : String) (parents : ℕ → Genetic_AI × Genetic_AI)
    (coins : ℕ → ℕ → Bool) (cuts : ℕ → ℕ) (noises : ℕ → ℕ → ℝ)
    (h1 : num_elite ≤ sorted_pop.length) (h2 : num_elite ≤ pop_size) :
    (∀ i < num_elite,
      ((next_generation sorted_pop num_elite pop_size aggregate parents coins cuts
          noises).getD i default).genotype = (sorted_pop.getD i default).genotype
      ∧ ((next_generation sorted_pop num_elite pop_size aggregate parents coins cuts
          noises).getD i default).fit_score = 0
      ∧ ((next_generation sorted_pop num_elite pop_size aggregate parents coins cuts
          noises).getD i default).previous_y = none)
    ∧ (∀ k < pop_size - num_elite,
      (next_generation sorted_pop num_elite pop_size aggregate parents coins cuts
          noises).getD (num_elite + k) default
        = cross (parents k).1 (parents k).2 aggregate (coins k) (cuts k) (noises k)
      ∧ ((next_generation sorted_pop num_elite pop_size aggregate parents coins cuts
          noises).getD (num_elite + k) default).genotype
        = mutate_genotype
            (crossGenotype (parents k).1 (parents k).2 aggregate (coins k) (cuts k))
            (noises k))
    ∧ (next_generation sorted_pop num_elite pop_size aggregate parents coins cuts
        noises).length = pop_size := by
  have hlen1 : ((List.range num_elite).map
      (fun i => Genetic_AI.init (some ((sorted_pop.getD i default).genotype)) 6 8 false
        (fun _ => 0) (fun _ => 0))).length = num_elite := by
    simp
  refine ⟨?_, ?_, ?_⟩
  · intro i hi
    have hid : (next_generation sorted_pop num_elite pop_size aggregate parents coins cuts
        noises).getD i default
        = Genetic_AI.init (some ((sorted_pop.getD i default).genotype)) 6 8 false
          (fun _ => 0) (fun _ => 0) := by
      unfold next_generation
      rw [List.getD_append _ _ default i (by rw [hlen1]; exact hi)]
      exact getD_map_range _ hi default
    rw [hid]
    exact ⟨rfl, rfl, rfl⟩
  · intro k hk
    have hid : (next_generation sorted_pop num_elite pop_size aggregate parents coins cuts
        noises).getD (num_elite + k) default
        = cross (parents k).1 (parents k).2 aggregate (coins k) (cuts k) (noises k) := by
      unfold next_generation
      rw [List.getD_append_right _ _ default (num_elite + k) (by rw [hlen1]; omega)]
      rw [hlen1]
      have hk2 : num_elite + k - num_elite = k := by omega
      rw [hk2]
      exact getD_map_range _ hk default
    rw [hid]
    exact ⟨rfl, rfl⟩
  · unfold next_generation
    rw [List.length_append]
    simp
    omega

/-- Witness for C5: one elite from a singleton ranked population (an
agent with nonzero fitness and a set `previous_y`) plus one mutated
offspring slot. -/
theorem c5_elites_and_offspring_witness :
    (∀ i < 1,
      ((next_generation [Genetic_AI.mk [(7 : ℝ)] 6 8 9 0 (some 1)] 1 2 "uniform"
          (fun _ => (Genetic_AI.mk [(1 : ℝ)] 6 8 0 0 none,
            Genetic_AI.mk [(2 : ℝ)] 6 8 0 0 none))
          (fun _ _ => true) (fun _ => 0) (fun _ _ => 0)).getD i default).genotype
        = (([Genetic_AI.mk [(7 : ℝ)] 6 8 9 0 (some 1)]).getD i default).genotype
      ∧ ((next_generation [Genetic_AI.mk [(7 : ℝ)] 6 8 9 0 (some 1)] 1 2 "uniform"
          (fun _ => (Genetic_AI.mk [(1 : ℝ)] 6 8 0 0 none,
            Genetic_AI.mk [(2 : ℝ)] 6 8 0 0 none))
          (fun _ _ => true) (fun _ => 0) (fun _ _ => 0)).getD i default).fit_score = 0
      ∧ ((next_generation [Genetic_AI.mk [(7 : ℝ)] 6 8 9 0 (some 1)] 1 2 "uniform"
          (fun _ => (Genetic_AI.mk [(1 : ℝ)] 6 8 0 0 none,
            Genetic_AI.mk [(2 : ℝ)] 6 8 0 0 none))
          (fun _ _ => true) (fun _ => 0) (fun _ _ => 0)).getD i default).previous_y = none)
    ∧ (∀ k < 2 - 1,
      (next_generation [Genetic_AI.mk [(7 : ℝ)] 6 8 9 0 (some 1)] 1 2 "uniform"
          (fun _ => (Genetic_AI.mk [(1 : ℝ)] 6 8 0 0 none,
            Genetic_AI.mk [(2 : ℝ)] 6 8 0 0 none))
          (fun _ _ => true) (fun _ => 0) (fun _ _ => 0)).getD (1 + k) default
        = cross (Genetic_AI.mk [(1 : ℝ)] 6 8 0 0 none, Genetic_AI.mk [(2 : ℝ)] 6 8 0 0 none).1
            (Genetic_AI.mk [(1 : ℝ)] 6 8 0 0 none, Genetic_AI.mk [(2 : ℝ)] 6 8 0 0 none).2
            "uniform" (fun _ => true) 0 (fun _ => 0)
      ∧ ((next_generation [Genetic_AI.mk [(7 : ℝ)] 6 8 9 0 (some 1)] 1 2 "uniform"
          (fun _ => (Genetic_AI.mk [(1 : ℝ)] 6 8 0 0 none,
            Genetic_AI.mk [(2 : ℝ)] 6 8 0 0 none))
          (fun _ _ => true) (fun _ => 0) (fun _ _ => 0)).getD (1 + k) default).genotype
        = mutate_genotype
            (crossGenotype
              (Genetic_AI.mk [(1 : ℝ)] 6 8 0 0 none, Genetic_AI.mk [(2 : ℝ)] 6 8 0 0 none).1
              (Genetic_AI.mk [(1 : ℝ)] 6 8 0 0 none, Genetic_AI.mk [(2 : ℝ)] 6 8 0 0 none).2
              "uniform" (fun _ => true) 0)
            (fun _ => 0))
    ∧ (next_generation [Genetic_AI.mk [(7 : ℝ)] 6 8 9 0 (some 1)] 1 2 "uniform"
        (fun _ => (Genetic_AI.mk [(1 : ℝ)] 6 8 0 0 none,
          Genetic_AI.mk [(2 : ℝ)] 6 8 0 0 none))
        (fun _ _ => true) (fun _ => 0) (fun _ _ => 0)).length = 2 :=
  c5_elites_and_offspring [Genetic_AI.mk [(7 : ℝ)] 6 8 9 0 (some 1)] 1 2 "uniform"
    (fun _ => (Genetic_AI.mk [(1 : ℝ)] 6 8 0 0 none, Genetic_AI.mk [(2 : ℝ)] 6 8 0 0 none))
    (fun _ _ => true) (fun _ => 0) (fun _ _ => 0) (by decide) (by decide)

/-! ## Claim C7 : tournament selection and the second-parent retry -/

theorem tournament_foldl_mem (pool : List Genetic_AI) (l : List ℕ) (b : ℕ) :
    l.foldl (tournament_step pool) b = b ∨ l.foldl (tournament_step pool) b ∈ l := by
  induction l generalizing b with
  | nil => exact Or.inl rfl
  | cons x xs ih =>
    rw [List.foldl_cons]
    rcases ih (tournament_step pool b x) with h | h
    · rw [h]
      unfold tournament_step
      by_cases hc : (pool.getD b default).fit_score < (pool.getD x default).fit_score
      · rw [if_pos hc]
        exact Or.inr (List.mem_cons_self x xs)
      · rw [if_neg hc]
        exact Or.inl rfl
    · exact Or.inr (List.mem_cons_of_mem x h)

theorem tournament_foldl_ge (pool : List Genetic_AI) (l : List ℕ) (b : ℕ) :
    (pool.getD b default).fit_score
      ≤ (pool.getD (l.foldl (tournament_step pool) b) default).fit_score
    ∧ ∀ j ∈ l, (pool.getD j default).fit_score
      ≤ (pool.getD (l.foldl (tournament_step pool) b) default).fit_score := by
  induction l generalizing b with
  | nil => exact ⟨le_refl _, by simp⟩
  | cons x xs ih =>
    rw [List.foldl_cons]
    have ihb := ih (tournament_step pool b x)
    have hbx : (pool.getD b default).fit_score
        ≤ (pool.getD (tournament_step pool b x) default).fit_score := by
      unfold tournament_step
      by_cases hc : (pool.getD b default).fit_score < (pool.getD x default).fit_score
      · rw [if_pos hc]
        exact le_of_lt hc
      · rw [if_neg hc]
    have hxx : (pool.getD x default).fit_score
        ≤ (pool.getD (tournament_step pool b x) default).fit_score := by
      unfold tournament_step
      by_cases hc : (pool.getD b default).fit_score < (pool.getD x default).fit_score
      · rw [if_pos hc]
      · rw [if_neg hc]
        exact le_of_not_lt hc
    refine ⟨le_trans hbx ihb.1, ?_⟩
    intro j hj
    rcases List.mem_cons.mp hj with rfl | hj2
    · exact le_trans hxx ihb.1
    · exact ihb.2 j hj2

theorem retry_second_spec (p1 poolLen : ℕ) (draws : List ℕ) (h1 : 1 < poolLen)
    (hd : ∃ d ∈ draws, d ≠ p1) :
    retry_second p1 poolLen draws ≠ p1 ∧ retry_second p1 poolLen draws ∈ draws := by
  induction draws with
  | nil => simp at hd
  | cons d ds ih =>
    by_cases hdp : d = p1
    · rw [retry_second, if_pos ⟨hdp, h1⟩]
      have hd2 : ∃ x ∈ ds, x ≠ p1 := by
        rcases hd with ⟨x, hx, hne⟩
        rcases List.mem_cons.mp hx with rfl | hx2
        · exact absurd hdp hne
        · exact ⟨x, hx2, hne⟩
      rcases ih hd2 with ⟨hne, hm⟩
      exact ⟨hne, List.mem_cons_of_mem d hm⟩
    · rw [retry_second, if_neg (fun hc => hdp hc.1)]
      exact ⟨hdp, List.mem_cons_self d ds⟩

/-- Claim C7: over any without-replacement sample of
`min(tournamentSize, |pool|)` distinct pool indices, tournament
selection returns a member of the sample whose fitness is maximal in
the sample; and, when the pool has more than one member, the retry loop
for the second parent returns one of the successive draws that differs
by identity (index) from the first parent.  (The sample being uniformly
random without replacement is the contract of Python's `random.sample`,
modelled here by quantifying over every such sample.) -/
theorem c7_tournament (pool : List Genetic_AI) (sample : List ℕ) (tsize : ℕ)
    (p1 poolLen : ℕ) (draws : List ℕ)
    (hts : 0 < tsize) (hpool : 0 < pool.length)
    (hlen : sample.length = min tsize pool.length)
    (hnd : sample.Nodup) (hmem : ∀ i ∈ sample, i < pool.length)
    (h1 : 1 < poolLen) (hd : ∃ d ∈ draws, d ≠ p1) :
    tournament_selection pool sample ∈ sample
    ∧ (∀ j ∈ sample, (pool.getD j default).fit_score
        ≤ (pool.getD (tournament_selection pool sample) default).fit_score)
    ∧ retry_second p1 poolLen draws ≠ p1
    ∧ retry_second p1 poolLen draws ∈ draws := by
  have hpos : 0 < sample.length := by
    rw [hlen]
    exact lt_min hts hpool
  rcases sample with _ | ⟨s, t⟩
  · simp at hpos
  · have hfold := tournament_foldl_ge pool t s
    have hmem2 := tournament_foldl_mem pool t s
    have hsel : tournament_selection pool (s :: t) = t.foldl (tournament_step pool) s := rfl
    refine ⟨?_, ?_, ?_, ?_⟩
    · rw [hsel]
      rcases hmem2 with h | h
      · rw [h]
        exact List.mem_cons_self s t
      · exact List.mem_cons_of_mem s h
    · intro j hj
      rw [hsel]
      rcases List.mem_cons.mp hj with rfl | hj2
      · exact hfold.1
      · exact hfold.2 j hj2
    · exact (retry_second_spec p1 poolLen draws h1 hd).1
    · exact (retry_second_spec p1 poolLen draws h1 hd).2

/-- Witness for C7: a two-agent pool with fitness scores 0 and 1,
the full sample `[0, 1]`, first parent index `0` and retry draws `[1]`. -/
theorem c7_tournament_witness :
    tournament_selection [Genetic_AI.mk [] 6 8 0 0 none, Genetic_AI.mk [] 6 8 1 0 none] [0, 1]
        ∈ [0, 1]
    ∧ (∀ j ∈ [0, 1],
        (([Genetic_AI.mk [] 6 8 0 0 none, Genetic_AI.mk [] 6 8 1 0 none]).getD j
            default).fit_score
          ≤ (([Genetic_AI.mk [] 6 8 0 0 none, Genetic_AI.mk [] 6 8 1 0 none]).getD
              (tournament_selection
                [Genetic_AI.mk [] 6 8 0 0 none, Genetic_AI.mk [] 6 8 1 0 none] [0, 1])
              default).fit_score)
    ∧ retry_second 0 2 [1] ≠ 0
    ∧ retry_second 0 2 [1] ∈ [1] :=
  c7_tournament [Genetic_AI.mk [] 6 8 0 0 none, Genetic_AI.mk [] 6 8 1 0 none] [0, 1] 2
    0 2 [1] (by decide) (by decide) (by decide) (by decide) (by decide) (by decide)
    (by decide)
